import Mathlib

/-!
Verification of the schedule/execute engine of the sprinkler controller.

Each definition below is a shallow embedding of a function of the source
(`server.js`, `event.js`, `calendar.js`, `weather.js`).  JavaScript numbers
are modelled as `Nat`, `Int` or `Rat` as appropriate; millisecond timestamps
are natural numbers; fallible paths return `Option`.  Side effects
(hardware writes, event records, queue pushes) are modelled as explicit
output lists or explicit state passing.
-/

namespace Sprinkler

/-! ### event.js : the event sink -/

/-- Mutable state of the event module: `latestDate` (ms since the epoch) and
`latestSequence`.  `event.js` initialises them to `new Date(0)` and `1`. -/
structure EventState where
  latestDate : Nat
  latestSequence : Nat
deriving Repr, DecidableEq

def initialEventState : EventState := ⟨0, 1⟩

/-- The stamping discipline of `event.record` (event.js lines 89-97): given
the wall clock reading `ts`, update the module state and return the
`(timestamp, sequence)` stamp attached to the recorded event.  The source
resets the sequence to 1 when `data.timestamp > latestDate` (and only then
moves `latestDate`), otherwise increments it. -/
def record (s : EventState) (ts : Nat) : EventState × Nat × Nat :=
  let s' : EventState :=
    if s.latestDate < ts then ⟨ts, 1⟩ else ⟨s.latestDate, s.latestSequence + 1⟩
  (s', ts, s'.latestSequence)

/-- Iterate `record` over a list of wall clock readings, collecting the
stamps attached to the successive records. -/
def recordAll (s : EventState) : List Nat → List (Nat × Nat)
  | [] => []
  | ts :: rest => (record s ts).2 :: recordAll (record s ts).1 rest

/-- Strict lexicographic order on `(timestamp, sequence)` stamps. -/
def eventLt (a b : Nat × Nat) : Prop :=
  a.1 < b.1 ∨ (a.1 = b.1 ∧ a.2 < b.2)

/-- Relation between two consecutive stamps: the sequence restarts at 1
exactly on a strict timestamp increase, is the previous sequence plus one
otherwise, and the stamps are lexicographically increasing. -/
def eventStepRel (a b : Nat × Nat) : Prop :=
  ((b.2 = 1) ↔ a.1 < b.1) ∧ (¬ a.1 < b.1 → b.2 = a.2 + 1) ∧ eventLt a b

/-! ### weather.js : the weather adjuster -/

/-- The `config.weather.adjust` parameters kept by `weather.js` in
`adjustParameters` (defaults: enable, min 30, max 150, humidity 30,
temperature 70, sensitivity 100). -/
structure WeatherAdjustParams where
  enable : Bool
  minimum : Nat
  maximum : Nat
  temperature : ℚ
  humidity : ℚ
  sensitivity : ℚ

/-- The fields of a cached weather report that the adjustment formula reads
(`weatherConditions.history.dailysummary[0]` and
`current_observation.precip_today_in`). -/
structure WeatherConditions where
  meantempi : ℚ
  maxhumidity : ℚ
  minhumidity : ℚ
  precipi : ℚ
  precipToday : ℚ

/-- `temperature()` of weather.js: the daily summary mean temperature. -/
def weatherTemperature (w : WeatherConditions) : ℚ := w.meantempi

/-- `humidity()` of weather.js: `Math.floor((max + min) / 2)`. -/
def weatherHumidity (w : WeatherConditions) : ℤ :=
  ⌊(w.maxhumidity + w.minhumidity) / 2⌋

/-- `rain()` of weather.js: yesterday plus today precipitation, in inches. -/
def weatherRain (w : WeatherConditions) : ℚ := w.precipi + w.precipToday

/-- `adjustment()` of weather.js.  With no cached report it returns 100;
otherwise it applies the documented formula and returns
`Math.floor(Math.max(0, 100 + adjust))`. -/
def weatherAdjustment (p : WeatherAdjustParams) (w : Option WeatherConditions) : ℤ :=
  match w with
  | none => 100
  | some c =>
    let humidFactor : ℚ := p.humidity - (weatherHumidity c : ℚ)
    let tempFactor : ℚ := (weatherTemperature c - p.temperature) * 4
    let rainFactor : ℚ := 0 - weatherRain c * 200
    let adjust : ℚ := p.sensitivity * (humidFactor + tempFactor + rainFactor) / 100
    ⌊max 0 (100 + adjust)⌋

/-- `adjust(duration)` of weather.js.  With no cached report, or with the
adjustment disabled, the duration is returned unchanged; otherwise the
half-rounded adjusted duration is clamped between the configured minimum
and maximum percentages and floored. -/
def weatherAdjust (p : WeatherAdjustParams) (w : Option WeatherConditions)
    (duration : Nat) : ℤ :=
  match w with
  | none => (duration : ℤ)
  | some c =>
    if p.enable = false then (duration : ℤ)
    else
      let minadjusted : ℚ := ((duration : ℚ) * p.minimum + 50) / 100
      let maxadjusted : ℚ := ((duration : ℚ) * p.maximum + 50) / 100
      let adjusted : ℚ :=
        ((duration : ℚ) * (weatherAdjustment p (some c) : ℚ) + 50) / 100
      ⌊min (max minadjusted adjusted) maxadjusted⌋

/-! ### Rain delay state (server.js) -/

/-- `rainDelayInterval` of server.js: one day minus one minute, in ms. -/
def rainDelayInterval : Nat := 86340000

/-- The rain sensor poll of `scheduler()` (server.js lines 559-565): when a
rain sensor reads true, push `rainTimer` to `rainDelayInterval + now` if
that is later than the current value.  `nowFloor` is the tick time with
seconds and milliseconds zeroed, as the source computes it. -/
def schedulerRainUpdate (rainTimer nowFloor : Nat) (raining : Bool) : Nat :=
  if raining then
    if rainDelayInterval + nowFloor > rainTimer then rainDelayInterval + nowFloor
    else rainTimer
  else rainTimer

/-- `rainCallback` of server.js (lines 968-973): on a rain edge with
`output` true, `rainTimer` is assigned `new Date().getTime() +
rainDelayInterval` unconditionally. -/
def rainCallback (output : Bool) (nowMs rainTimer : Nat) : Nat :=
  if output then nowMs + rainDelayInterval else rainTimer

/-- The `/raindelay` route of server.js (lines 218-233): start a new delay
when none is pending, extend the pending one otherwise. -/
def raindelayRouteTimer (nowMs rainTimer : Nat) : Nat :=
  if nowMs > rainTimer then nowMs + rainDelayInterval
  else rainTimer + rainDelayInterval

/-! ### Run queue data (server.js) -/

/-- An entry of `runqueue`.  `zone = none` models `zone:null`, a pause item.
`adjust`/`pct` are present only when an adjustment source applied (the
source names the latter field `ratio`). -/
structure RunItem where
  zone : Option ℤ
  seconds : ℤ
  parent : Option String
  adjust : Option String := none
  pct : Option Nat := none
deriving Repr, DecidableEq

/-! ### scheduler (server.js lines 539-571) -/

/-- The scheduler-visible mutable state of server.js: `lastScheduleCheck`
(initially -1), `rainTimer` (ms), the run queue and the current run.  The
source keeps `running` as an object; only its identity matters here, so it
is kept as an optional run item. -/
structure SchedState where
  lastScheduleCheck : ℤ
  rainTimer : Nat
  runqueue : List RunItem
  running : Option RunItem

/-- The initial scheduler-visible state of server.js (`lastScheduleCheck =
-1`, `rainTimer = 0`, empty queue, nothing running). -/
def initialSchedState : SchedState :=
  { lastScheduleCheck := -1, rainTimer := 0, runqueue := [], running := none }

/-- One `scheduler()` tick (server.js lines 539-571).  `nowMinute` is
`now.minute()` (minute of the hour), `nowFloorMs` the tick time with seconds
and milliseconds zeroed.  `hwRain`/`weatherRain` are the two rain sensor
reads.  `evalPrograms` stands for the two `scheduleProgramList` walks (which
may launch programs and hence touch the queue); the returned boolean records
whether they were reached on this tick. -/
def scheduler (cfgOn raindelay hwRain weatherRain : Bool)
    (nowMinute nowFloorMs : Nat) (evalPrograms : SchedState → SchedState)
    (s : SchedState) : SchedState × Bool :=
  if cfgOn = false then (s, false)
  else if (nowMinute : ℤ) = s.lastScheduleCheck then (s, false)
  else
    let s1 : SchedState := { s with lastScheduleCheck := (nowMinute : ℤ) }
    if raindelay then
      let s2 : SchedState :=
        { s1 with rainTimer := schedulerRainUpdate s1.rainTimer nowFloorMs (hwRain || weatherRain) }
      if s2.rainTimer > nowFloorMs then (s2, false)
      else (evalPrograms s2, true)
    else (evalPrograms s1, true)

/-- Run the 10-second scheduler tick source over a list of tick times given
as absolute wall-clock minutes (`a` minutes since the epoch: the minute of
the hour is `a % 60` and the second-truncated tick time is `a * 60000` ms),
with automatic watering on and rain delay disabled, counting how many ticks
reached program evaluation. -/
def schedulerTicks (evalPrograms : SchedState → SchedState) :
    SchedState → List Nat → SchedState × Nat
  | s, [] => (s, 0)
  | s, a :: rest =>
    let r := scheduler true false false false (a % 60) (a * 60000) evalPrograms s
    let k := schedulerTicks evalPrograms r.1 rest
    (k.1, (if r.2 then 1 else 0) + k.2)

/-- `rainCallback` acting on the scheduler-visible state: the handler writes
`rainTimer` and touches nothing else. -/
def rainCallbackState (output : Bool) (nowMs : Nat) (s : SchedState) : SchedState :=
  { s with rainTimer := rainCallback output nowMs s.rainTimer }

/-- The `/raindelay` route acting on the scheduler-visible state: it writes
`rainTimer` and touches nothing else. -/
def raindelayRouteState (nowMs : Nat) (s : SchedState) : SchedState :=
  { s with rainTimer := raindelayRouteTimer nowMs s.rainTimer }

/-! ### Hardware driver interface and the executor (server.js) -/

/-- A call into the hardware driver: `setZone(index, on)` or `apply()`. -/
inductive HwCmd
  | set (index : Nat) (value : Bool)
  | apply
deriving Repr, DecidableEq

/-- A shift-register style driver commits `pending` to `physical` on
`apply()`; `setZone` only stages the value. -/
structure HwState where
  pending : Nat → Bool
  physical : Nat → Bool

/-- Effect of one driver call. -/
def hwStep (s : HwState) : HwCmd → HwState
  | .set i v => { s with pending := Function.update s.pending i v }
  | .apply => { s with physical := s.pending }

/-- Effect of a sequence of driver calls. -/
def hwRun (s : HwState) (cmds : List HwCmd) : HwState :=
  cmds.foldl hwStep s

/-- Per-zone configuration entry (`config.zones[i]`).  `pulse = 0` models an
absent (falsy) pulse; `pause = 0` an absent pause. -/
structure ZoneConfig where
  name : String
  manual : Bool := false
  adjust : Option String := none
  pulse : Nat := 0
  pause : Nat := 0
  master : Option ℤ := none
deriving Repr, DecidableEq

/-- `zoneMaster(index, on)` of server.js (lines 843-851): the driver calls it
issues.  The master valve is driven only when configured and within the zone
count. -/
def zoneMaster (zones : List ZoneConfig) (index : Nat) (value : Bool) : List HwCmd :=
  match (zones.get? index).bind (fun z => z.master) with
  | some m => if 0 ≤ m ∧ m < (zones.length : ℤ) then [.set m.toNat value, .apply] else []
  | none => []

/-- Driver calls issued by `processQueue` when it starts a zone (server.js
lines 917-921): open the valve zone first, commit, then its master. -/
def startZoneCmds (zones : List ZoneConfig) (zone : Nat) : List HwCmd :=
  [.set zone true, .apply] ++ zoneMaster zones zone true

/-- Driver calls issued by the zone timer expiry (server.js lines 935-940):
close the master first, then the valve zone, then commit. -/
def stopZoneCmds (zones : List ZoneConfig) (zone : Nat) : List HwCmd :=
  zoneMaster zones zone false ++ [.set zone false, .apply]

/-- Driver calls issued by `zonesOff` (server.js lines 871-874). -/
def zonesOffCmds (zones : List ZoneConfig) : List HwCmd :=
  ((List.range zones.length).map (fun i => HwCmd.set i false)) ++ [.apply]

/-- An event record emitted by the executor, reduced to the fields the
claims inspect. -/
inductive EvRec
  | startZone (zone : ℤ) (parent : Option String) (seconds : ℤ)
      (adjust : Option String) (pct : Option Nat)
  | skipZone (zone : ℤ) (parent : String)
deriving Repr, DecidableEq

/-- How a synchronous pass of `processQueue` left the executor. -/
inductive QueueOutcome
  /-- Queue drained: `running = null`, all zones shut off. -/
  | idle
  /-- A pause item armed `zoneTimer` for `seconds`; no hardware action. -/
  | pauseArmed (seconds : ℤ)
  /-- A zone was energised and its timers armed. -/
  | zoneArmed (zone : Nat) (seconds : ℤ)
  /-- An out-of-range zone was dequeued: the error was logged and the pass
  returned without arming anything. -/
  | halted (zone : ℤ)
deriving Repr, DecidableEq

/-- Result of one synchronous pass of `processQueue`: events recorded,
driver calls made, the queue left behind, and how the pass ended. -/
structure QueueResult where
  events : List EvRec
  hw : List HwCmd
  queue : List RunItem
  outcome : QueueOutcome
deriving Repr, DecidableEq

/-- One synchronous pass of `processQueue` (server.js lines 884-966),
followed until it either arms a timer, halts on an invalid zone, or drains
the queue.  An item with `seconds <= 0` is skipped by recursion; a
`zone:null` item arms the pause timer; an out-of-range zone index makes the
pass log an error and return at once (no recursion); a valid zone records a
START event, energises the zone (and master) and arms its timers.  The
timer callbacks themselves are modelled by `stopZoneCmds`. -/
def processQueue (zones : List ZoneConfig) : List RunItem → QueueResult
  | [] =>
    { events := [], hw := zonesOffCmds zones, queue := [], outcome := .idle }
  | item :: rest =>
    if item.seconds ≤ 0 then processQueue zones rest
    else
      match item.zone with
      | none =>
        { events := [], hw := [], queue := rest, outcome := .pauseArmed item.seconds }
      | some z =>
        if z < 0 ∨ (zones.length : ℤ) ≤ z then
          { events := [], hw := [], queue := rest, outcome := .halted z }
        else
          { events := [.startZone z item.parent item.seconds item.adjust item.pct],
            hw := startZoneCmds zones z.toNat,
            queue := rest,
            outcome := .zoneArmed z.toNat item.seconds }

/-! ### programOn (server.js lines 676-839) -/

/-- One entry of `program.zones`: a zone index and its configured seconds. -/
structure ProgramZone where
  zone : ℤ
  seconds : Nat
deriving Repr, DecidableEq

/-- A watering program, reduced to the fields `programOn` reads. -/
structure WateringProgram where
  name : String
  zones : List ProgramZone
deriving Repr, DecidableEq

/-- One entry of `config.adjust`: a named monthly or weekly vector of
percentages. -/
structure AdjustEntry where
  name : String
  weekly : Option (List Nat) := none
  monthly : Option (List Nat) := none
deriving Repr, DecidableEq

/-- The environment `programOn` consults besides the zone configuration:
the current week and month (for the adjustment vectors) and the two
external adjusters, each reduced to its enabled flag, its `adjust`
function and its source tag. -/
structure AdjustEnv where
  week : Nat
  month : Nat
  wiEnabled : Bool
  wiAdjust : Nat → Nat
  wiSource : String
  weatherEnabled : Bool
  weatherAdjustFn : Nat → Nat

/-- `zonecontext[i]` of `programOn` phase 1. -/
structure ZoneCtx where
  zone : ℤ
  raw : Nat
  adjusted : Nat
  source : Option String
  pct : Nat
  pulse : Nat
  pause : Nat
deriving Repr, DecidableEq

/-- Phase 1 of `programOn` for one program zone (server.js lines 696-776):
look up the zone configuration (a JavaScript crash on an out-of-range zone
index is modelled by `none`), honour the `manual` flag (SKIP event,
adjusted time 0), pick the adjustment source by priority (named profile,
else watering index, else weather, else none) and derive pulse and pause.
The source keeps the last `config.adjust` entry whose name matches (its
loop has no break); `pct` models the `ratio` field `floor(adjusted*100 /
seconds)` (for `seconds = 0` the source computes NaN, modelled here as 0,
a case no configured program exercises). -/
def buildZoneCtx (zones : List ZoneConfig) (adjustList : List AdjustEntry)
    (env : AdjustEnv) (pname : String) (pz : ProgramZone) :
    Option (ZoneCtx × List EvRec) :=
  if pz.zone < 0 then none
  else
    match zones.get? pz.zone.toNat with
    | none => none
    | some zcfg =>
      if zcfg.manual then
        some ({ zone := pz.zone, raw := pz.seconds, adjusted := 0,
                source := none, pct := 0, pulse := 0, pause := 0 },
              [.skipZone pz.zone pname])
      else
        let adjustname := zcfg.adjust.getD "default"
        let entry := (adjustList.filter (fun a => a.name = adjustname)).getLast?
        let sa : Option String × Nat :=
          match entry with
          | some adj =>
            match adj.weekly, adj.monthly with
            | some w, _ =>
              (some (adjustname ++ " (weekly)"),
               (pz.seconds * w.getD env.week 0 + 50) / 100)
            | none, some m =>
              (some (adjustname ++ " (monthly)"),
               (pz.seconds * m.getD env.month 0 + 50) / 100)
            | none, none => (none, (pz.seconds * 100 + 50) / 100)
          | none =>
            if env.wiEnabled then (some env.wiSource, env.wiAdjust pz.seconds)
            else if env.weatherEnabled then
              (some "WEATHER", env.weatherAdjustFn pz.seconds)
            else (none, pz.seconds)
        let adjusted := sa.2
        some ({ zone := pz.zone, raw := pz.seconds, adjusted := adjusted,
                source := sa.1,
                pct := adjusted * 100 / pz.seconds,
                pulse := if zcfg.pulse ≠ 0 then zcfg.pulse else adjusted,
                pause := if zcfg.pulse ≠ 0 then zcfg.pause else 0 },
              [])

/-- Phase 1 of `programOn` over the whole zone list. -/
def buildZoneCtxs (zones : List ZoneConfig) (adjustList : List AdjustEntry)
    (env : AdjustEnv) (pname : String) :
    List ProgramZone → Option (List ZoneCtx × List EvRec)
  | [] => some ([], [])
  | pz :: rest => do
    let c ← buildZoneCtx zones adjustList env pname pz
    let r ← buildZoneCtxs zones adjustList env pname rest
    pure (c.1 :: r.1, c.2 ++ r.2)

/-- The run item `programOn` pushes for one pulse of a zone (server.js
lines 806-815): the adjustment fields are attached only when a source
applied. -/
def mkRunItem (pname : String) (c : ZoneCtx) (runtime : Nat) : RunItem :=
  match c.source with
  | some s =>
    { zone := some c.zone, seconds := (runtime : ℤ), parent := some pname,
      adjust := some s, pct := some c.pct }
  | none =>
    { zone := some c.zone, seconds := (runtime : ℤ), parent := some pname }

/-- The body of the phase 2 loop for one zone with time remaining
(server.js lines 787-801): returns the updated context, the emitted run
item (built by the caller) runtime, and the pause this zone contributes to
the iteration (its configured pause when a further run remains, 0 when the
zone is done or its tail fragment was dropped). -/
def pulseIterZone (c : ZoneCtx) : ZoneCtx × Nat × Nat :=
  if c.pulse < c.adjusted then
    if c.adjusted - c.pulse < 15 ∧ c.adjusted - c.pulse < c.pulse then
      ({ c with adjusted := 0 }, c.pulse, 0)
    else
      ({ c with adjusted := c.adjusted - c.pulse }, c.pulse, c.pause)
  else
    ({ c with adjusted := 0 }, c.adjusted, 0)

/-- One pass of the phase 2 `for` loop over all zones: updated contexts,
emitted run items in zone order, and the running maximum of the pause
contributions (the source folds `if (pause < p) pause = p`). -/
def pulseIteration (pname : String) : List ZoneCtx → List ZoneCtx × List RunItem × Nat
  | [] => ([], [], 0)
  | c :: cs =>
    if c.adjusted = 0 then
      (c :: (pulseIteration pname cs).1, (pulseIteration pname cs).2.1,
       (pulseIteration pname cs).2.2)
    else
      ((pulseIterZone c).1 :: (pulseIteration pname cs).1,
       mkRunItem pname c (pulseIterZone c).2.1 :: (pulseIteration pname cs).2.1,
       max (pulseIterZone c).2.2 (pulseIteration pname cs).2.2)

/-- One iteration of the phase 2 `while` loop: the `for` pass followed by
the single group-level pause item when the pause maximum is positive
(server.js lines 817-819). -/
def pulseRound (pname : String) (cs : List ZoneCtx) : List ZoneCtx × List RunItem :=
  let r := pulseIteration pname cs
  (r.1, r.2.1 ++ if 0 < r.2.2 then
      [{ zone := none, seconds := (r.2.2 : ℤ), parent := some pname }] else [])

/-- `timeremaining`: the sum of remaining adjusted times. -/
def sumAdjusted (cs : List ZoneCtx) : Nat := (cs.map (fun c => c.adjusted)).sum

/-- The phase 2 `while (timeremaining > 0)` loop, fuelled.  Every reachable
context has `pulse ≥ 1` whenever `adjusted ≥ 1`, so each round shrinks
`sumAdjusted` by at least one and a fuel of `sumAdjusted + 1` is exact. -/
def pulseLoop (pname : String) : Nat → List ZoneCtx → List RunItem
  | 0, _ => []
  | fuel + 1, cs =>
    if sumAdjusted cs = 0 then []
    else
      let r := pulseRound pname cs
      r.2 ++ pulseLoop pname fuel r.1

/-- The run items `programOn(program)` pushes on the run queue (server.js
lines 676-820): phase 1 builds the zone contexts, phase 2 emits the pulsed
plan.  `none` models the JavaScript crash on an out-of-range zone index.
Event recording (SKIP, START) and the `processQueue` kick are side effects
modelled separately. -/
def programOnQueue (zones : List ZoneConfig) (adjustList : List AdjustEntry)
    (env : AdjustEnv) (p : WateringProgram) : Option (List RunItem) := do
  let r ← buildZoneCtxs zones adjustList env p.name p.zones
  pure (pulseLoop p.name (sumAdjusted r.1 + 1) r.1)

/-! ### calendar.js : the iCalendar importer -/

/-- One token of an event DESCRIPTION after the `split(/[ ,]/)` and
`split(/[=:]/)` passes of calendar.js: a name, with a value when the token
had a `=`/`:` separator. -/
structure DescToken where
  name : String
  value : Option Nat
deriving Repr, DecidableEq

/-- One zone entry produced from a DESCRIPTION token: a zone array index
and seconds (minutes times 60). -/
structure CalZone where
  zone : Nat
  seconds : Nat
deriving Repr, DecidableEq

/-- `descriptionToZones` of calendar.js (lines 379-396): turn the tokens
into zone entries; a value token whose name is not a configured zone name
makes the whole conversion return null. -/
def descriptionToZones (zoneIdx : String → Option Nat) :
    List DescToken → Option (List CalZone)
  | [] => some []
  | t :: ts =>
    match t.value with
    | none => descriptionToZones zoneIdx ts
    | some v =>
      match zoneIdx t.name with
      | none => none
      | some z => (descriptionToZones zoneIdx ts).map
          (fun rest => { zone := z, seconds := v * 60 } :: rest)

/-- `descriptionToOptions` of calendar.js (lines 403-413): the `append`
option is set when some bare token reads `append`. -/
def descriptionToOptions (ts : List DescToken) : Bool :=
  ts.any (fun t => t.name = "append" ∧ t.value = none)

/-- An update event attached to a recurring event (same UID plus a
RECURRENCE-ID), with times already decoded to local milliseconds. -/
structure ICalException where
  recurrence : ℤ
  start : ℤ
  description : List DescToken
deriving Repr, DecidableEq

/-- The RRULE of a recurring event. -/
structure ICalRRule where
  freq : String
  untilTime : Option ℤ := none
  interval : Option Nat := none
  byday : List String := []
deriving Repr, DecidableEq

/-- A decoded iCalendar event as `decodeEventsFromICalendar` delivers it to
`iCalendarToProgram`: all times already decoded to local milliseconds, the
start `none` when its date string did not parse. -/
structure ICalEvent where
  uid : String
  summary : String
  start : Option ℤ
  rrule : Option ICalRRule := none
  exceptions : List ICalException := []
  exdate : List ℤ := []
  description : List DescToken
deriving Repr, DecidableEq

/-- A non-repeating replacement program built from an update event. -/
structure CalUpdate where
  zones : Option (List CalZone)
  optionsAppend : Bool
  rpt : String
  date : ℤ
  start : ℤ
  name : String
deriving Repr, DecidableEq

/-- A program synthesised from a calendar event (`rpt` models the source
field `repeat`; `start`/`date` keep the decoded moment rather than its
HH:mm / YYYYMMDD rendering). -/
structure CalProgram where
  active : Bool
  parent : String
  name : String
  start : ℤ
  date : ℤ
  rpt : String
  interval : Nat := 1
  days : List Bool := []
  untilTime : Option ℤ := none
  exclusions : List ℤ := []
  exceptions : List CalUpdate := []
  uid : String
  zones : Option (List CalZone)
  optionsAppend : Bool
deriving Repr, DecidableEq

/-- `iCalendarDaysDictionary` of calendar.js. -/
def iCalendarDays : List String := ["SU", "MO", "TU", "WE", "TH", "FR", "SA"]

/-- The BYDAY vector: start from seven `false` bits and set the bit of each
recognised day tag (an unrecognised tag is logged and ignored; `List.set`
beyond the length is a no-op, matching that). -/
def bydayToDays (byday : List String) : List Bool :=
  byday.foldl (fun days d => days.set (iCalendarDays.indexOf d) true)
    [false, false, false, false, false, false, false]

/-- `program.interval` from the RRULE: the interval when present and
truthy, else 1. -/
def rruleInterval (r : ICalRRule) : Nat :=
  match r.interval with
  | some n => if n = 0 then 1 else n
  | none => 1

/-- The expiry filter of the exceptions loop (calendar.js lines 508-509):
an update is kept unless both its new start and the occurrence it replaces
are more than a minute in the past. -/
def keptExceptions (now : ℤ) (es : List ICalException) : List ICalException :=
  es.filter (fun e => ¬(now - e.start > 60000 ∧ now - e.recurrence > 60000))

/-- The update program built from one kept exception (calendar.js lines
505-516).  Its zone list is `descriptionToZones` of the update DESCRIPTION,
stored without any null check. -/
def mkCalUpdate (zoneIdx : String → Option Nat) (pname : String)
    (e : ICalException) : CalUpdate :=
  { zones := descriptionToZones zoneIdx e.description,
    optionsAppend := descriptionToOptions e.description,
    rpt := "none", date := e.start, start := e.start, name := pname }

/-- The recurrence-dependent part of `iCalendarToProgram` (calendar.js
lines 456-526): the UNTIL expiry check, the RRULE frequency dispatch and
the exceptions loop for a recurring event, or the single-occurrence expiry
check otherwise.  Returns repeat kind, interval, day bits, until bound,
exception updates and their excluded occurrences, or `none` when the event
is rejected. -/
def iCalendarCore (zoneIdx : String → Option Nat) (now : ℤ) (pname : String)
    (start : ℤ) (ev : ICalEvent) :
    Option (String × Nat × List Bool × Option ℤ × List CalUpdate × List ℤ) :=
  match ev.rrule with
  | some rrule =>
    (match rrule.untilTime with
     | some u => if now - u ≥ 60000 then none else some (some u)
     | none => some none).bind (fun untl =>
    (if rrule.freq = "DAILY" then
        some ("daily", rruleInterval rrule, ([] : List Bool))
      else if rrule.freq = "WEEKLY" then
        some ("weekly", 1, bydayToDays rrule.byday)
      else none).bind (fun rid =>
    some (rid.1, rid.2.1, rid.2.2, untl,
          (keptExceptions now ev.exceptions).map (mkCalUpdate zoneIdx pname),
          (keptExceptions now ev.exceptions).map (fun e : ICalException => e.recurrence))))
  | none =>
    if now - start ≥ 60000 then none
    else some ("none", 1, [], none, [], [])

/-- `iCalendarToProgram` of calendar.js (lines 437-546): translate a decoded
event into a program, or `none` when the event is rejected (invalid start,
expired, unsupported RRULE frequency, or unknown zone name in the main
DESCRIPTION).  Kept update events are appended as exceptions with their
replaced occurrences as exclusions; EXDATE entries are appended as
exclusions. -/
def iCalendarToProgram (zoneIdx : String → Option Nat) (now : ℤ)
    (calName : String) (ev : ICalEvent) : Option CalProgram :=
  match ev.start with
  | none => none
  | some start =>
    (iCalendarCore zoneIdx now (ev.summary ++ "@" ++ calName) start ev).bind
      (fun core =>
        (descriptionToZones zoneIdx ev.description).bind (fun zs =>
          some { active := true, parent := calName,
                 name := ev.summary ++ "@" ++ calName,
                 start := start, date := start,
                 rpt := core.1, interval := core.2.1, days := core.2.2.1,
                 untilTime := core.2.2.2.1,
                 exclusions := core.2.2.2.2.2 ++ ev.exdate,
                 exceptions := core.2.2.2.2.1,
                 uid := ev.uid, zones := some zs,
                 optionsAppend := descriptionToOptions ev.description }))

/-! ### Concrete instances used by the witnesses and counterexamples -/

/-- An environment with both external adjusters disabled and no adjustment
profile applicable: runtimes pass through unadjusted. -/
def exAdjustEnv : AdjustEnv :=
  { week := 0, month := 0, wiEnabled := false, wiAdjust := id, wiSource := "WI",
    weatherEnabled := false, weatherAdjustFn := id }

/-- A single zone configured with `pulse=20, pause=10` (scenario 3 of the
specification). -/
def exZonesC6 : List ZoneConfig := [{ name := "Zone 0", pulse := 20, pause := 10 }]

/-- The program `zones:[{zone:0, seconds:50}]` of scenario 3. -/
def exProgC6 : WateringProgram := { name := "P", zones := [{ zone := 0, seconds := 50 }] }

/-- Three plain zones (zone count 3). -/
def exZones3 : List ZoneConfig := [{ name := "a" }, { name := "b" }, { name := "c" }]

/-- Zone 0 has zone 1 as its configured master. -/
def exZonesC1 : List ZoneConfig := [{ name := "branch", master := some 1 }, { name := "mstr" }]

/-- A scheduler state with a pending rain deadline and a queued item. -/
def exSchedStateC2 : SchedState :=
  { lastScheduleCheck := -1, rainTimer := 10,
    runqueue := [{ zone := some 1, seconds := 30, parent := some "A" }],
    running := some { zone := some 0, seconds := 60, parent := some "A" } }

/-- The default weather adjust parameters of weather.js. -/
def exWeatherParams : WeatherAdjustParams :=
  { enable := true, minimum := 30, maximum := 150, temperature := 70,
    humidity := 30, sensitivity := 100 }

/-- A cached weather report. -/
def exWeatherConditions : WeatherConditions :=
  { meantempi := 60, maxhumidity := 40, minhumidity := 20, precipi := 0,
    precipToday := 0 }

/-- A zone name index knowing only the zone `lawn` at index 0. -/
def exZi : String → Option Nat := fun s => if s = "lawn" then some 0 else none

/-- A weekly event whose main DESCRIPTION names the known zone `lawn` but
whose update event names the unknown zone `weeds`. -/
def exEvent : ICalEvent :=
  { uid := "u1", summary := "S", start := some 1000,
    rrule := some { freq := "WEEKLY", byday := ["TU"] },
    exceptions := [{ recurrence := 5000, start := 6000,
                     description := [{ name := "weeds", value := some 5 }] }],
    description := [{ name := "lawn", value := some 10 }] }

/-- A weekly event whose main DESCRIPTION names the unknown zone `weeds`. -/
def exEventBad : ICalEvent :=
  { uid := "u1", summary := "S", start := some 1000,
    rrule := some { freq := "WEEKLY", byday := ["TU"] },
    description := [{ name := "weeds", value := some 10 }] }

/-- The program `iCalendarToProgram` synthesises from `exEvent` at `now = 0`:
the unknown-zone exception is kept, with a null zone list. -/
def exCalProgram : CalProgram :=
  { active := true, parent := "cal", name := "S@cal", start := 1000, date := 1000,
    rpt := "weekly", interval := 1,
    days := [false, false, true, false, false, false, false],
    untilTime := none, exclusions := [5000],
    exceptions := [{ zones := none, optionsAppend := false, rpt := "none",
                     date := 6000, start := 6000, name := "S@cal" }],
    uid := "u1", zones := some [{ zone := 0, seconds := 600 }],
    optionsAppend := false }

/-- A zone context mid-pulse: 50 s remaining, pulse 20, pause 10. -/
def exCtxC5 : ZoneCtx :=
  { zone := 0, raw := 50, adjusted := 50, source := none, pct := 100,
    pulse := 20, pause := 10 }

/-! ## Helper lemmas -/

theorem le_schedulerRainUpdate (d n : Nat) (r : Bool) :
    d ≤ schedulerRainUpdate d n r := by
  unfold schedulerRainUpdate
  split_ifs <;> omega

/-! ## C3: rain detection and the deadline -/

/-- C3 counterexample: with a deadline already two intervals in the future,
the hardware rain-interrupt callback (server.js lines 968-973) overwrites it
with `now + rainDelayInterval`, a strictly earlier moment — the deadline is
shortened, not set to the max. -/
theorem rainCallback_shortens_deadline :
    rainCallback true 0 (2 * rainDelayInterval) < 2 * rainDelayInterval := by
  norm_num [rainCallback, rainDelayInterval]

/-- C3 (amended): the Scheduler's per-tick rain poll only ever moves the
deadline later — on rain it sets it to `max(deadline, now +
rainDelayInterval)` — but the hardware rain-interrupt callback assigns
`deadline = now + rainDelayInterval` unconditionally, which can shorten a
deadline that was already beyond that moment. -/
theorem rain_detection_deadline_update :
    (∀ d n, schedulerRainUpdate d n true = max d (n + rainDelayInterval)) ∧
    (∀ d n r, d ≤ schedulerRainUpdate d n r) ∧
    (∀ d n, rainCallback true n d = n + rainDelayInterval) := by
  refine ⟨?_, fun d n r => le_schedulerRainUpdate d n r, fun d n => rfl⟩
  intro d n
  have h : schedulerRainUpdate d n true
      = if rainDelayInterval + n > d then rainDelayInterval + n else d := rfl
  rw [h]
  split_ifs <;> omega

/-! ## C8: weather adjust bounds -/

/-- C8: with a cached report and the adjustment enabled, for every duration
`s` the value of `weather.adjust(s)` lies between
`floor((s*min + 50)/100)` and `floor((s*max + 50)/100)` — the half-rounded
adjusted duration clamped between the configured minimum and maximum
percentages of `s` — whatever the observed weather was. -/
theorem weatherAdjust_bounds (p : WeatherAdjustParams) (c : WeatherConditions)
    (s : Nat) (hen : p.enable = true) (hmm : p.minimum ≤ p.maximum) :
    ⌊((s : ℚ) * p.minimum + 50) / 100⌋ ≤ weatherAdjust p (some c) s ∧
    weatherAdjust p (some c) s ≤ ⌊((s : ℚ) * p.maximum + 50) / 100⌋ := by
  unfold weatherAdjust
  simp only [hen]
  have hab : ((s : ℚ) * p.minimum + 50) / 100 ≤ ((s : ℚ) * p.maximum + 50) / 100 := by
    gcongr
  constructor
  · exact Int.floor_le_floor (le_min (le_max_left _ _) hab)
  · exact Int.floor_le_floor (min_le_right _ _)

/-- C8 witness at the default parameters, a concrete report and s = 100. -/
theorem weatherAdjust_bounds_witness :
    exWeatherParams.enable = true ∧ exWeatherParams.minimum ≤ exWeatherParams.maximum ∧
    (⌊((100 : ℚ) * exWeatherParams.minimum + 50) / 100⌋ ≤
        weatherAdjust exWeatherParams (some exWeatherConditions) 100 ∧
      weatherAdjust exWeatherParams (some exWeatherConditions) 100 ≤
        ⌊((100 : ℚ) * exWeatherParams.maximum + 50) / 100⌋) :=
  ⟨rfl, by norm_num [exWeatherParams],
   weatherAdjust_bounds exWeatherParams exWeatherConditions 100 rfl
     (by norm_num [exWeatherParams])⟩

/-! ## C2: rain hold blocks launches but not runs -/

/-- C2: when the rain delay feature is on and the deadline lies in the
future at a tick (the tick time `nowMs` is at or after the second-truncated
`nowFloorMs` the source compares against), the scheduler reaches no program
evaluation and leaves the run queue and the in-flight run untouched;
moreover the rain-interrupt callback and the `/raindelay` route only move
the deadline and never touch the queue or the in-flight run. -/
theorem scheduler_rainhold (cfgOn hwRain weatherRain : Bool)
    (nowMinute nowFloorMs nowMs : Nat) (f : SchedState → SchedState)
    (s : SchedState) (hfloor : nowFloorMs ≤ nowMs) (hfut : nowMs < s.rainTimer) :
    (scheduler cfgOn true hwRain weatherRain nowMinute nowFloorMs f s).2 = false ∧
    (scheduler cfgOn true hwRain weatherRain nowMinute nowFloorMs f s).1.runqueue
      = s.runqueue ∧
    (scheduler cfgOn true hwRain weatherRain nowMinute nowFloorMs f s).1.running
      = s.running ∧
    (∀ output n, (rainCallbackState output n s).runqueue = s.runqueue ∧
                 (rainCallbackState output n s).running = s.running) ∧
    (∀ n, (raindelayRouteState n s).runqueue = s.runqueue ∧
          (raindelayRouteState n s).running = s.running) := by
  refine ?_
  have hgate : nowFloorMs < schedulerRainUpdate s.rainTimer nowFloorMs (hwRain || weatherRain) := by
    have := le_schedulerRainUpdate s.rainTimer nowFloorMs (hwRain || weatherRain)
    omega
  unfold scheduler
  refine ⟨?_, ?_, ?_, fun output n => ⟨rfl, rfl⟩, fun n => ⟨rfl, rfl⟩⟩ <;>
    · split
      · rfl
      · split
        · rfl
        · simp [hgate]

/-- C2 witness: a concrete blocked tick over a state with a queued item and
a running zone. -/
theorem scheduler_rainhold_witness :
    (0 : Nat) ≤ 5 ∧ 5 < exSchedStateC2.rainTimer ∧
    ((scheduler true true false false 7 0 id exSchedStateC2).2 = false ∧
     (scheduler true true false false 7 0 id exSchedStateC2).1.runqueue
       = exSchedStateC2.runqueue ∧
     (scheduler true true false false 7 0 id exSchedStateC2).1.running
       = exSchedStateC2.running ∧
     (∀ output n, (rainCallbackState output n exSchedStateC2).runqueue
         = exSchedStateC2.runqueue ∧
       (rainCallbackState output n exSchedStateC2).running
         = exSchedStateC2.running) ∧
     (∀ n, (raindelayRouteState n exSchedStateC2).runqueue
         = exSchedStateC2.runqueue ∧
       (raindelayRouteState n exSchedStateC2).running
         = exSchedStateC2.running)) :=
  ⟨by decide, by decide,
   scheduler_rainhold true false false 7 0 5 id exSchedStateC2 (by decide) (by decide)⟩

/-! ## C7: event stamping totally orders the records -/

theorem eventLt_trans : Transitive eventLt := by
  intro a b c hab hbc
  unfold eventLt at *
  omega

instance : IsTrans (Nat × Nat) eventLt := ⟨fun _ _ _ hab hbc => eventLt_trans hab hbc⟩

theorem recordAll_map_fst (st : EventState) (tss : List Nat) :
    (recordAll st tss).map Prod.fst = tss := by
  induction tss generalizing st with
  | nil => rfl
  | cons t rest ih => simp [recordAll, record, ih]

theorem record_latestDate (st : EventState) (t : Nat) (h : st.latestDate ≤ t) :
    (record st t).1.latestDate = t := by
  unfold record
  dsimp only
  split <;> simp_all <;> omega

theorem record_seq_pos (st : EventState) (t : Nat) (h : 1 ≤ st.latestSequence) :
    1 ≤ (record st t).1.latestSequence := by
  unfold record
  dsimp only
  split <;> simp <;> omega

theorem record_seq_val (st : EventState) (t : Nat) :
    (record st t).2.2
      = if st.latestDate < t then 1 else st.latestSequence + 1 := by
  unfold record
  dsimp only
  split <;> rfl

theorem record_state_seq (st : EventState) (t : Nat) :
    (record st t).1.latestSequence = (record st t).2.2 := rfl

theorem recordAll_chain_aux (rest : List Nat) :
    ∀ (t : Nat) (st : EventState),
      st.latestDate ≤ t → 1 ≤ st.latestSequence →
      List.Chain' (· ≤ ·) (t :: rest) →
      List.Chain' eventStepRel (recordAll st (t :: rest)) := by
  induction rest with
  | nil =>
    intro t st _ _ _
    simp [recordAll]
  | cons t' rest' ih =>
    intro t st hle hseq hch
    have hch' := (List.chain'_cons.mp hch)
    have htt' : t ≤ t' := hch'.1
    have hd : (record st t).1.latestDate = t := record_latestDate st t hle
    have hs : 1 ≤ (record st t).1.latestSequence := record_seq_pos st t hseq
    have htail : List.Chain' eventStepRel (recordAll (record st t).1 (t' :: rest')) :=
      ih t' (record st t).1 (by omega) hs hch'.2
    show List.Chain' eventStepRel
      ((record st t).2 :: recordAll (record st t).1 (t' :: rest'))
    rw [show recordAll (record st t).1 (t' :: rest')
          = (record (record st t).1 t').2
            :: recordAll (record (record st t).1 t').1 rest' from rfl] at htail ⊢
    refine List.chain'_cons.mpr ⟨?_, htail⟩
    have h1 : (record st t).2.1 = t := rfl
    have h2 : (record (record st t).1 t').2.1 = t' := rfl
    have h3 : (record (record st t).1 t').2.2
        = if t < t' then 1 else (record st t).1.latestSequence + 1 := by
      rw [record_seq_val, hd]
    have h4 : (record st t).2.2 = (record st t).1.latestSequence := rfl
    unfold eventStepRel eventLt
    rw [h1, h2, h3, h4]
    by_cases hlt : t < t'
    · simp [hlt]
    · have ht : t' = t := by omega
      simp [hlt, ht]
      omega

/-- C7: every recorded event is stamped with its wall-clock timestamp; with
a monotone (nondecreasing) wall clock, consecutive stamps satisfy: the
sequence is 1 exactly when the timestamp strictly increased and is the
previous sequence plus one otherwise, and the `(timestamp, sequence)` pairs
are strictly increasing lexicographically — they totally order the recorded
events. -/
theorem event_record_spec (tss : List Nat) (h : List.Chain' (· ≤ ·) tss) :
    (recordAll initialEventState tss).map Prod.fst = tss ∧
    List.Chain' eventStepRel (recordAll initialEventState tss) ∧
    List.Pairwise eventLt (recordAll initialEventState tss) := by
  have hchain : List.Chain' eventStepRel (recordAll initialEventState tss) := by
    cases tss with
    | nil => simp [recordAll]
    | cons t rest =>
      exact recordAll_chain_aux rest t initialEventState
        (by simp [initialEventState]) (le_refl 1) h
  refine ⟨recordAll_map_fst _ _, hchain, ?_⟩
  exact List.chain'_iff_pairwise.mp (hchain.imp (fun a b hr => hr.2.2))

/-- C7 witness on the clock readings 5, 5, 8: the stamps are (5,1), (5,2),
(8,1). -/
theorem event_record_spec_witness :
    List.Chain' (· ≤ ·) [5, 5, 8] ∧
    ((recordAll initialEventState [5, 5, 8]).map Prod.fst = [5, 5, 8] ∧
     List.Chain' eventStepRel (recordAll initialEventState [5, 5, 8]) ∧
     List.Pairwise eventLt (recordAll initialEventState [5, 5, 8])) :=
  ⟨by norm_num [List.chain'_cons, List.chain'_singleton],
   event_record_spec [5, 5, 8]
     (by norm_num [List.chain'_cons, List.chain'_singleton])⟩

/-! ## C1: master valve ordering -/

theorem prefix_of_four {α : Type} {p : List α} {a b c d : α}
    (h : p <+: [a, b, c, d]) :
    p = [] ∨ p = [a] ∨ p = [a, b] ∨ p = [a, b, c] ∨ p = [a, b, c, d] := by
  obtain ⟨t, ht⟩ := h
  rcases p with _ | ⟨x1, _ | ⟨x2, _ | ⟨x3, _ | ⟨x4, _ | ⟨x5, p⟩⟩⟩⟩⟩ <;>
    simp_all

/-- C1: for a run item whose zone has a configured master (in range), the
executor opens the branch zone first (`setZone(zone,true); apply()`) and
only then the master; the expiry callback closes the master first and only
then the branch zone; and along every prefix of either call sequence the
committed bank state never has the master open while its branch zone is
closed (starting from both closed at energisation, and from the zone open
and staged open at de-energisation). -/
theorem master_zone_ordering (zones : List ZoneConfig) (z : Nat) (m : ℤ)
    (hm : (zones.get? z).bind (fun zc => zc.master) = some m)
    (h0 : 0 ≤ m) (hlt : m < (zones.length : ℤ)) :
    startZoneCmds zones z
      = [.set z true, .apply, .set m.toNat true, .apply] ∧
    stopZoneCmds zones z
      = [.set m.toNat false, .apply, .set z false, .apply] ∧
    (∀ s₀ : HwState, s₀.pending m.toNat = false → s₀.physical m.toNat = false →
      ∀ p, p <+: startZoneCmds zones z →
        ¬((hwRun s₀ p).physical m.toNat = true ∧ (hwRun s₀ p).physical z = false)) ∧
    (∀ s₀ : HwState, s₀.pending z = true → s₀.physical z = true →
      ∀ p, p <+: stopZoneCmds zones z →
        ¬((hwRun s₀ p).physical m.toNat = true ∧ (hwRun s₀ p).physical z = false)) := by
  have hstart : startZoneCmds zones z
      = [.set z true, .apply, .set m.toNat true, .apply] := by
    unfold startZoneCmds zoneMaster
    rw [hm]
    simp [h0, hlt]
  have hstop : stopZoneCmds zones z
      = [.set m.toNat false, .apply, .set z false, .apply] := by
    unfold stopZoneCmds zoneMaster
    rw [hm]
    simp [h0, hlt]
  refine ⟨hstart, hstop, ?_, ?_⟩
  · intro s₀ hp hph p hpre
    rw [hstart] at hpre
    rcases prefix_of_four hpre with rfl | rfl | rfl | rfl | rfl <;>
      by_cases hmz : m.toNat = z <;>
        simp_all [hwRun, hwStep, Function.update_apply]
  · intro s₀ hp hph p hpre
    rw [hstop] at hpre
    rcases prefix_of_four hpre with rfl | rfl | rfl | rfl | rfl <;>
      by_cases hmz : m.toNat = z <;>
        simp_all [hwRun, hwStep, Function.update_apply]

/-- C1 witness: zone 0 with master 1, starting from an all-off bank at
energisation and from zone 0 open at de-energisation. -/
theorem master_zone_ordering_witness :
    ((exZonesC1.get? 0).bind (fun zc => zc.master) = some 1 ∧
      (0 : ℤ) ≤ 1 ∧ (1 : ℤ) < (exZonesC1.length : ℤ)) ∧
    (startZoneCmds exZonesC1 0
        = [.set 0 true, .apply, .set (1 : ℤ).toNat true, .apply] ∧
      stopZoneCmds exZonesC1 0
        = [.set (1 : ℤ).toNat false, .apply, .set 0 false, .apply] ∧
      (∀ s₀ : HwState, s₀.pending (1 : ℤ).toNat = false →
        s₀.physical (1 : ℤ).toNat = false →
        ∀ p, p <+: startZoneCmds exZonesC1 0 →
          ¬((hwRun s₀ p).physical (1 : ℤ).toNat = true ∧
            (hwRun s₀ p).physical 0 = false)) ∧
      (∀ s₀ : HwState, s₀.pending 0 = true → s₀.physical 0 = true →
        ∀ p, p <+: stopZoneCmds exZonesC1 0 →
          ¬((hwRun s₀ p).physical (1 : ℤ).toNat = true ∧
            (hwRun s₀ p).physical 0 = false))) :=
  ⟨⟨rfl, by decide, by decide⟩,
   master_zone_ordering exZonesC1 0 1 rfl (by decide) (by decide)⟩

/-! ## C9: out-of-range zone in a run item -/

/-- C9 counterexample: dequeuing an out-of-range zone (99 with 3 zones
configured) is not drop-and-continue — the pass halts, leaving the valid
item behind unprocessed, while dropping the head would have started zone 0
(server.js lines 904-907 return without recursing). -/
theorem processQueue_invalid_zone_counterexample :
    processQueue exZones3
        [{ zone := some 99, seconds := 10, parent := none },
         { zone := some 0, seconds := 10, parent := none }]
      ≠ processQueue exZones3 [{ zone := some 0, seconds := 10, parent := none }] := by
  decide

/-- C9 (amended): when `processQueue` dequeues a run item whose zone index
is out of range (negative or at least the configured zone count; a missing
zone is treated as a pause by the earlier `zone == null` test), it logs an
error and returns at once: the invalid item has been removed from the
queue, but the remaining items are left unprocessed (no event, no hardware
call, no timer armed) until some later trigger calls `processQueue` again. -/
theorem processQueue_invalid_zone_halts (zones : List ZoneConfig)
    (item : RunItem) (rest : List RunItem) (z : ℤ)
    (hz : item.zone = some z) (hpos : 0 < item.seconds)
    (hbad : z < 0 ∨ (zones.length : ℤ) ≤ z) :
    processQueue zones (item :: rest)
      = { events := [], hw := [], queue := rest, outcome := .halted z } := by
  unfold processQueue
  rw [if_neg (by omega), hz]
  simp only [if_pos hbad]

/-- C9 witness: the invalid head (zone 99 of 3) halts the queue with the
valid item left behind. -/
theorem processQueue_invalid_zone_halts_witness :
    (({ zone := some 99, seconds := 10, parent := none } : RunItem).zone = some 99 ∧
      (0 : ℤ) < ({ zone := some 99, seconds := 10, parent := none } : RunItem).seconds ∧
      ((99 : ℤ) < 0 ∨ (exZones3.length : ℤ) ≤ 99)) ∧
    processQueue exZones3
        [{ zone := some 99, seconds := 10, parent := none },
         { zone := some 0, seconds := 10, parent := none }]
      = { events := [], hw := [],
          queue := [{ zone := some 0, seconds := 10, parent := none }],
          outcome := .halted 99 } :=
  ⟨⟨rfl, by decide, by decide⟩,
   processQueue_invalid_zone_halts exZones3 _ _ 99 rfl (by decide) (by decide)⟩

/-! ## C5: pulsed emission discipline -/

theorem pulseIterZone_keeps_pause (c : ZoneCtx) :
    (pulseIterZone c).1.pause = c.pause := by
  unfold pulseIterZone
  split_ifs <;> rfl

theorem pulseIterZone_pause_contrib (c : ZoneCtx) :
    (pulseIterZone c).2.2
      = (if 0 < (pulseIterZone c).1.adjusted then c.pause else 0) := by
  unfold pulseIterZone
  split_ifs <;> simp_all <;> omega

/-- C5: each phase 2 iteration emits, for every zone with time remaining, a
pulse of `min(adjusted, pulse)` seconds and decrements `adjusted`, zeroing
a residual that is positive but under 15 s and under the pulse; the
iteration's pause is the maximum configured pause over the zones that still
have time remaining afterwards; all emitted items are zone items, and a
single PAUSE item carrying that maximum is appended at the end of the
iteration exactly when the maximum is at least 1. -/
theorem pulse_emission_spec (pname : String) :
    (∀ c : ZoneCtx, 0 < c.adjusted →
      (pulseIterZone c).2.1 = min c.adjusted c.pulse ∧
      (pulseIterZone c).1.adjusted =
        (if 0 < c.adjusted - min c.adjusted c.pulse ∧
            c.adjusted - min c.adjusted c.pulse < 15 ∧
            c.adjusted - min c.adjusted c.pulse < c.pulse then 0
         else c.adjusted - min c.adjusted c.pulse)) ∧
    (∀ cs : List ZoneCtx,
      (pulseIteration pname cs).2.2
        = ((pulseIteration pname cs).1.map
            (fun c => if 0 < c.adjusted then c.pause else 0)).foldr max 0 ∧
      (∀ item ∈ (pulseIteration pname cs).2.1, item.zone ≠ none) ∧
      (pulseRound pname cs).2
        = (pulseIteration pname cs).2.1 ++
            (if 0 < (pulseIteration pname cs).2.2 then
              [{ zone := none, seconds := ((pulseIteration pname cs).2.2 : ℤ),
                 parent := some pname }] else [])) := by
  constructor
  · intro c hc
    constructor
    · unfold pulseIterZone
      split_ifs <;> simp <;> omega
    · unfold pulseIterZone
      split_ifs <;> simp_all <;> omega
  · intro cs
    refine ⟨?_, ?_, rfl⟩
    · induction cs with
      | nil => simp [pulseIteration]
      | cons c cs ih =>
        unfold pulseIteration
        by_cases hc : c.adjusted = 0
        · simp [hc, ih]
        · rw [if_neg hc]
          simp [List.foldr, ih, pulseIterZone_pause_contrib c,
                pulseIterZone_keeps_pause c]
    · induction cs with
      | nil => simp [pulseIteration]
      | cons c cs ih =>
        unfold pulseIteration
        by_cases hc : c.adjusted = 0
        · simpa [hc] using ih
        · intro item hitem
          rcases List.mem_cons.mp (by simpa [hc] using hitem) with h | h
          · subst h
            unfold mkRunItem
            cases c.source <;> simp
          · exact ih item h

/-- C5 witness at a zone context with 50 s remaining, pulse 20, pause 10. -/
theorem pulse_emission_spec_witness :
    0 < exCtxC5.adjusted ∧
    ((pulseIterZone exCtxC5).2.1 = min exCtxC5.adjusted exCtxC5.pulse ∧
      (pulseIterZone exCtxC5).1.adjusted =
        (if 0 < exCtxC5.adjusted - min exCtxC5.adjusted exCtxC5.pulse ∧
            exCtxC5.adjusted - min exCtxC5.adjusted exCtxC5.pulse < 15 ∧
            exCtxC5.adjusted - min exCtxC5.adjusted exCtxC5.pulse < exCtxC5.pulse
         then 0
         else exCtxC5.adjusted - min exCtxC5.adjusted exCtxC5.pulse)) ∧
    ((pulseIteration "P" [exCtxC5]).2.2
        = (((pulseIteration "P" [exCtxC5]).1.map
            (fun c => if 0 < c.adjusted then c.pause else 0)).foldr max 0) ∧
      (∀ item ∈ (pulseIteration "P" [exCtxC5]).2.1, item.zone ≠ none) ∧
      (pulseRound "P" [exCtxC5]).2
        = (pulseIteration "P" [exCtxC5]).2.1 ++
            (if 0 < (pulseIteration "P" [exCtxC5]).2.2 then
              [{ zone := none, seconds := ((pulseIteration "P" [exCtxC5]).2.2 : ℤ),
                 parent := some "P" }] else [])) :=
  ⟨by decide, (pulse_emission_spec "P").1 exCtxC5 (by decide),
   (pulse_emission_spec "P").2 [exCtxC5]⟩

/-! ## C6: the pulse splitting scenario -/

/-- C6 counterexample: for zone 0 with `pulse=20, pause=10` and program
`[{zone:0, seconds:50}]` the expansion does NOT produce
`[{0,20},{0,20},{PAUSE,10},{0,10}]`: the 10 s tail is below the 15 s
threshold and below the pulse, so it is dropped, and the pause is emitted
at the end of the first iteration, between the two 20 s pulses. -/
theorem programOn_pulse_example_counterexample :
    programOnQueue exZonesC6 [] exAdjustEnv exProgC6
      ≠ some [{ zone := some 0, seconds := 20, parent := some "P" },
              { zone := some 0, seconds := 20, parent := some "P" },
              { zone := none, seconds := 10, parent := some "P" },
              { zone := some 0, seconds := 10, parent := some "P" }] := by
  decide

/-- C6 (amended): the expansion produces
`[{0,20},{PAUSE,10},{0,20}]` — two 20 s pulses separated by the 10 s group
pause, for a total on-time of 40 s: the 10 s residual is dropped because it
is under the 15 s threshold and under the pulse. -/
theorem programOn_pulse_example :
    programOnQueue exZonesC6 [] exAdjustEnv exProgC6
      = some [{ zone := some 0, seconds := 20, parent := some "P" },
              { zone := none, seconds := 10, parent := some "P" },
              { zone := some 0, seconds := 20, parent := some "P" }] ∧
    ((([{ zone := some 0, seconds := 20, parent := some "P" },
         { zone := none, seconds := 10, parent := some "P" },
         { zone := some 0, seconds := 20, parent := some "P" }] : List RunItem).filter
        (fun i => i.zone ≠ none)).map (fun i => i.seconds)).sum = 40 := by
  constructor <;> decide

/-! ## C4: the minute gate of the scheduler -/

theorem scheduler_no_raindelay (k n : Nat) (f : SchedState → SchedState)
    (s : SchedState) :
    scheduler true false false false k n f s
      = if (k : ℤ) = s.lastScheduleCheck then (s, false)
        else (f { s with lastScheduleCheck := (k : ℤ) }, true) := by
  unfold scheduler
  simp

theorem mod60_cast_ne (a b : Nat) (hab : a < b) (hgap : b - a < 60) :
    ((b % 60 : Nat) : ℤ) ≠ ((a % 60 : Nat) : ℤ) := by
  omega

theorem chain_gap_head_le (b : Nat) (rest : List Nat)
    (h : List.Chain' (fun x y => x ≤ y ∧ y - x < 60) (b :: rest)) :
    ∀ x ∈ rest, b ≤ x := by
  have h' : List.Chain' (· ≤ ·) (b :: rest) := h.imp (fun _ _ hh => hh.1)
  have hp : List.Pairwise (· ≤ ·) (b :: rest) := List.chain'_iff_pairwise.mp h'
  exact fun x hx => (List.pairwise_cons.mp hp).1 x hx

theorem schedulerTicks_aux (f : SchedState → SchedState)
    (hf : ∀ t, (f t).lastScheduleCheck = t.lastScheduleCheck)
    (rest : List Nat) :
    ∀ (a : Nat) (s : SchedState),
      s.lastScheduleCheck = ((a % 60 : Nat) : ℤ) →
      List.Chain' (fun x y => x ≤ y ∧ y - x < 60) (a :: rest) →
      (schedulerTicks f s rest).2 = (a :: rest).dedup.length - 1 := by
  induction rest with
  | nil =>
    intro a s _ _
    simp [schedulerTicks]
  | cons b rest' ih =>
    intro a s hlast hch
    have hab := (List.chain'_cons.mp hch).1
    have hch' := (List.chain'_cons.mp hch).2
    by_cases hba : b = a
    · subst hba
      have hstep : scheduler true false false false (b % 60) (b * 60000) f s
          = (s, false) := by
        rw [scheduler_no_raindelay, if_pos (by rw [hlast])]
      have hrec := ih b s hlast hch'
      have hmem : b ∈ b :: rest' := List.mem_cons_self b rest'
      calc (schedulerTicks f s (b :: rest')).2
          = (schedulerTicks f s rest').2 := by
            simp [schedulerTicks, hstep]
        _ = (b :: rest').dedup.length - 1 := hrec
        _ = (b :: b :: rest').dedup.length - 1 := by
            rw [List.dedup_cons_of_mem hmem]
    · have halt : a < b := lt_of_le_of_ne hab.1 (fun h => hba h.symm)
      have hkey : ((b % 60 : Nat) : ℤ) ≠ s.lastScheduleCheck := by
        rw [hlast]
        exact mod60_cast_ne a b halt hab.2
      have hstep : scheduler true false false false (b % 60) (b * 60000) f s
          = (f { s with lastScheduleCheck := ((b % 60 : Nat) : ℤ) }, true) := by
        rw [scheduler_no_raindelay, if_neg hkey]
      have hrec := ih b (f { s with lastScheduleCheck := ((b % 60 : Nat) : ℤ) })
        (by rw [hf]) hch'
      have hnotmem : a ∉ b :: rest' := by
        intro hmem
        rcases List.mem_cons.mp hmem with h | h
        · exact hba h.symm
        · exact absurd (chain_gap_head_le b rest' hch' a h) (by omega)
      have hlen : 1 ≤ (b :: rest').dedup.length := by
        have : (b :: rest').dedup ≠ [] := by
          rw [ne_eq, List.dedup_eq_nil]
          simp
        exact List.length_pos.mpr this
      calc (schedulerTicks f s (b :: rest')).2
          = 1 + (schedulerTicks f
              (f { s with lastScheduleCheck := ((b % 60 : Nat) : ℤ) }) rest').2 := by
            simp [schedulerTicks, hstep]
        _ = 1 + ((b :: rest').dedup.length - 1) := by rw [hrec]
        _ = (a :: b :: rest').dedup.length - 1 := by
            rw [List.dedup_cons_of_not_mem hnotmem]
            simp
            omega

/-- C4 counterexample: the source gates on `now.minute()` alone, not on an
HH:MM key.  The monotone tick sequence visiting absolute minutes 605
(10:05) and 665 (11:05) touches two distinct wall-clock minutes but
evaluates the program lists only once — the second tick sees the same
minute-of-hour 5 and returns immediately. -/
theorem scheduler_minute_gate_counterexample :
    List.Chain' (· ≤ ·) [605, 665] ∧
    (schedulerTicks id initialSchedState [605, 665]).2 = 1 ∧
    ([605, 665] : List Nat).dedup.length = 2 := by
  refine ⟨by norm_num [List.chain'_cons, List.chain'_singleton], by decide, by decide⟩

/-- C4 (amended): the minute key the source compares is the minute of the
hour (`now.minute()`), not an HH:MM key, and for any nondecreasing tick
sequence whose consecutive ticks are less than 60 minutes apart (as with
the real 10-second cadence) the number of ticks that reach program
evaluation equals the number of distinct wall-clock minutes touched; ticks
exactly a multiple of an hour apart alias the key and are skipped. -/
theorem scheduler_minute_gate (f : SchedState → SchedState)
    (hf : ∀ t, (f t).lastScheduleCheck = t.lastScheduleCheck)
    (ticks : List Nat)
    (hch : List.Chain' (fun x y => x ≤ y ∧ y - x < 60) ticks) :
    (schedulerTicks f initialSchedState ticks).2 = ticks.dedup.length := by
  cases ticks with
  | nil => rfl
  | cons a rest =>
    have hkey : ((a % 60 : Nat) : ℤ) ≠ initialSchedState.lastScheduleCheck := by
      simp [initialSchedState]
      omega
    have hstep : scheduler true false false false (a % 60) (a * 60000) f
        initialSchedState
        = (f { initialSchedState with lastScheduleCheck := ((a % 60 : Nat) : ℤ) },
           true) := by
      rw [scheduler_no_raindelay, if_neg hkey]
    have hrec := schedulerTicks_aux f hf rest a
      (f { initialSchedState with lastScheduleCheck := ((a % 60 : Nat) : ℤ) })
      (by rw [hf]) hch
    have hlen : 1 ≤ (a :: rest).dedup.length := by
      have : (a :: rest).dedup ≠ [] := by
        rw [ne_eq, List.dedup_eq_nil]
        simp
      exact List.length_pos.mpr this
    calc (schedulerTicks f initialSchedState (a :: rest)).2
        = 1 + (schedulerTicks f
            (f { initialSchedState with lastScheduleCheck := ((a % 60 : Nat) : ℤ) })
            rest).2 := by
          simp [schedulerTicks, hstep]
      _ = 1 + ((a :: rest).dedup.length - 1) := by rw [hrec]
      _ = (a :: rest).dedup.length := by omega

/-- C4 witness: ticks at absolute minutes 0, 1, 1, 2 — three distinct
minutes, three evaluations. -/
theorem scheduler_minute_gate_witness :
    (∀ t : SchedState, (id t).lastScheduleCheck = t.lastScheduleCheck) ∧
    List.Chain' (fun x y => x ≤ y ∧ y - x < 60) [0, 1, 1, 2] ∧
    (schedulerTicks id initialSchedState [0, 1, 1, 2]).2
      = ([0, 1, 1, 2] : List Nat).dedup.length :=
  ⟨fun t => rfl,
   by norm_num [List.chain'_cons, List.chain'_singleton],
   scheduler_minute_gate id (fun t => rfl) [0, 1, 1, 2]
     (by norm_num [List.chain'_cons, List.chain'_singleton])⟩

/-! ## C10: unknown zone names in calendar events -/

theorem option_bind_const_none {α β : Type} (x : Option α) :
    (x.bind fun _ => (none : Option β)) = none := by
  cases x <;> rfl

/-- C10: a main event whose DESCRIPTION names a zone unknown to the zone
index is rejected outright (`iCalendarToProgram` returns null and no
program is created), while every kept (non-expired) exception update is
appended to `program.exceptions` with `descriptionToZones` of its own
DESCRIPTION stored unchecked — a null zone list when it names an unknown
zone — so the unknown-zone rejection applies only at the main-event level. -/
theorem iCalendarToProgram_some_start (zoneIdx : String → Option Nat)
    (now : ℤ) (calName : String) (ev : ICalEvent) (st : ℤ)
    (hs : ev.start = some st) :
    iCalendarToProgram zoneIdx now calName ev
      = (iCalendarCore zoneIdx now (ev.summary ++ "@" ++ calName) st ev).bind
          (fun core =>
            (descriptionToZones zoneIdx ev.description).bind (fun zs =>
              some { active := true, parent := calName,
                     name := ev.summary ++ "@" ++ calName,
                     start := st, date := st,
                     rpt := core.1, interval := core.2.1, days := core.2.2.1,
                     untilTime := core.2.2.2.1,
                     exclusions := core.2.2.2.2.2 ++ ev.exdate,
                     exceptions := core.2.2.2.2.1,
                     uid := ev.uid, zones := some zs,
                     optionsAppend := descriptionToOptions ev.description })) := by
  unfold iCalendarToProgram
  rw [hs]

theorem iCalendarCore_rrule (zoneIdx : String → Option Nat) (now : ℤ)
    (pname : String) (start : ℤ) (ev : ICalEvent) (rrule : ICalRRule)
    (hr : ev.rrule = some rrule) :
    iCalendarCore zoneIdx now pname start ev
      = (match rrule.untilTime with
         | some u => if now - u ≥ 60000 then none else some (some u)
         | none => some none).bind (fun untl =>
        (if rrule.freq = "DAILY" then
            some ("daily", rruleInterval rrule, ([] : List Bool))
          else if rrule.freq = "WEEKLY" then
            some ("weekly", 1, bydayToDays rrule.byday)
          else none).bind (fun rid =>
        some (rid.1, rid.2.1, rid.2.2, untl,
              (keptExceptions now ev.exceptions).map (mkCalUpdate zoneIdx pname),
              (keptExceptions now ev.exceptions).map (fun e : ICalException => e.recurrence)))) := by
  unfold iCalendarCore
  rw [hr]

theorem calendar_unknown_zone (zoneIdx : String → Option Nat) (now : ℤ)
    (calName : String) :
    (∀ ev : ICalEvent, descriptionToZones zoneIdx ev.description = none →
      iCalendarToProgram zoneIdx now calName ev = none) ∧
    (∀ (ev : ICalEvent) (p : CalProgram) (rrule : ICalRRule),
      ev.rrule = some rrule →
      iCalendarToProgram zoneIdx now calName ev = some p →
      p.exceptions = (keptExceptions now ev.exceptions).map
        (mkCalUpdate zoneIdx (ev.summary ++ "@" ++ calName))) := by
  constructor
  · intro ev hz
    cases hs : ev.start with
    | none =>
      unfold iCalendarToProgram
      rw [hs]
    | some st =>
      rw [iCalendarToProgram_some_start zoneIdx now calName ev st hs, hz]
      exact option_bind_const_none _
  · intro ev p rrule hr hp
    cases hs : ev.start with
    | none =>
      unfold iCalendarToProgram at hp
      rw [hs] at hp
      exact absurd hp (by simp)
    | some st =>
      rw [iCalendarToProgram_some_start zoneIdx now calName ev st hs,
          iCalendarCore_rrule zoneIdx now (ev.summary ++ "@" ++ calName) st ev
            rrule hr] at hp
      rcases Option.bind_eq_some.mp hp with ⟨core, hcore, hf⟩
      rcases Option.bind_eq_some.mp hf with ⟨zs, hzs, hsome⟩
      rcases Option.bind_eq_some.mp hcore with ⟨untl, hu, h2⟩
      rcases Option.bind_eq_some.mp h2 with ⟨rid, hrid, h3⟩
      have hc : core = (rid.1, rid.2.1, rid.2.2, untl,
          (keptExceptions now ev.exceptions).map
            (mkCalUpdate zoneIdx (ev.summary ++ "@" ++ calName)),
          (keptExceptions now ev.exceptions).map (fun e : ICalException => e.recurrence)) :=
        (Option.some.injEq _ _ ▸ h3).symm
      have hpp := (Option.some.injEq _ _ ▸ hsome)
      rw [← hpp, hc]

/-- C10 witness: `exEventBad` (unknown zone in the main DESCRIPTION) is
rejected; `exEvent` is imported and its unknown-zone update is appended to
the exceptions with a null zone list. -/
theorem calendar_unknown_zone_witness :
    (descriptionToZones exZi exEventBad.description = none ∧
      iCalendarToProgram exZi 0 "cal" exEventBad = none) ∧
    (exEvent.rrule = some { freq := "WEEKLY", byday := ["TU"] } ∧
      iCalendarToProgram exZi 0 "cal" exEvent = some exCalProgram ∧
      exCalProgram.exceptions = (keptExceptions 0 exEvent.exceptions).map
        (mkCalUpdate exZi (exEvent.summary ++ "@" ++ "cal")) ∧
      exCalProgram.exceptions.map (fun u => u.zones) = [none]) :=
  ⟨⟨by decide, (calendar_unknown_zone exZi 0 "cal").1 exEventBad (by decide)⟩,
   ⟨rfl, by decide,
    (calendar_unknown_zone exZi 0 "cal").2 exEvent exCalProgram
      { freq := "WEEKLY", byday := ["TU"] } rfl (by decide),
    by decide⟩⟩

end Sprinkler
